import Mathlib

/-!
Shallow embedding of the two Arduino sketches in this repository:
`safe-lock/safe-lock.ino` (an IR-remote "combination lock") and
`TempHumidityMonitor/TempHumidityMonitor.ino` (a temperature/humidity
monitor).  Machine integers are modelled as `Nat` with explicit
`% 2^w` where the width matters (`currentpulse` is a `uint8_t`, the
pulse counters are `uint16_t`).  I/O (serial prints, tone, servo PWM)
is modelled as observable flags in the step results.
-/

namespace SafeLock

/-- Source constant: `#define MAXPULSE 65000`. -/
def MAXPULSE : Nat := 65000

/-- Source constant: `#define RESOLUTION 20`. -/
def RESOLUTION : Nat := 20

/-- The table `char *numstrs[]` of known 34-character IR bit patterns,
each associated with the digit equal to its index. -/
def numstrs : List (List Char) :=
  [ "1101000100101110101010000101011111".toList
  , "1101000100101110110000000011111111".toList
  , "1101000100101110101000000101111111".toList
  , "1101000100101110111000000001111111".toList
  , "1101000100101110100100000110111111".toList
  , "1101000100101110110100000010111111".toList
  , "1101000100101110101100000100111111".toList
  , "1101000100101110111100000000111111".toList
  , "1101000100101110100010000111011111".toList
  , "1101000100101110110010000011011111".toList ]

/-- Source table: `int code[] = {5, 5, 6, 8, 7, 2, 8, 0};`. -/
def code : List Int := [5, 5, 6, 8, 7, 2, 8, 0]

/-- Lookup `code[pos]` (total version; positions used by the sketch are 0..7). -/
def codeDigit (pos : Nat) : Int := code.getD pos (-2)

/-!
## Bit decoding (first loop of `getvalue`)

`for (uint8_t i = 0; i < currentpulse && charpos < 34; i++)`:
pairs whose low half satisfies `pulses[i][1] * RESOLUTION > 1000` are
skipped, otherwise a `'1'` or `'0'` is appended according to
`pulses[i][0] * RESOLUTION > 1000`, until 34 characters are written.

The sketch targets AVR (it reads `PIND` and uses `_BV`), where `int`
is 16 bits: `pulses[i][k] * RESOLUTION` is a `uint16_t` times `int`
multiply carried out in 16-bit unsigned arithmetic, so the scaled
duration wraps mod 65536 before the comparison with 1000.
-/

/-- The decoding loop of `getvalue`, with `c` playing `charpos`; the
scaled durations are the program's 16-bit products, reduced mod
65536. -/
def decodeAux : List (Nat × Nat) → Nat → List Char
  | [], _ => []
  | (h, l) :: rest, c =>
    if c < 34 then
      if l * RESOLUTION % 65536 > 1000 then
        decodeAux rest c
      else
        (if h * RESOLUTION % 65536 > 1000 then '1' else '0') :: decodeAux rest (c + 1)
    else []

/-- The characters written into `str` by the decoding loop of
`getvalue`, given the captured pulse pairs `pulses[0..currentpulse-1]`. -/
def decodeBits (ps : List (Nat × Nat)) : List Char := decodeAux ps 0

/-- Restatement of the spec's description of bit decoding (§4.2),
read with unbounded scaled durations: drop inter-frame gaps (low
phase over the threshold), map the rest to bits by the high phase,
cap the output at 34 characters. -/
def decodeBitsSpec (ps : List (Nat × Nat)) : List Char :=
  ((ps.filter fun p => !decide (p.2 * RESOLUTION > 1000)).map
    fun p => if p.1 * RESOLUTION > 1000 then '1' else '0').take 34

/-- The spec's filter-map-truncate description of bit decoding with
the scaled durations reduced mod 65536, as the 16-bit AVR multiply
actually computes them. -/
def decodeBitsSpecWrap (ps : List (Nat × Nat)) : List Char :=
  ((ps.filter fun p => !decide (p.2 * RESOLUTION % 65536 > 1000)).map
    fun p => if p.1 * RESOLUTION % 65536 > 1000 then '1' else '0').take 34

/-!
## The `str` buffer and code matching (second half of `getvalue`)

`char str[34]` is a stack local that is never initialized and never
null-terminated; cells at or after `charpos` keep whatever bytes were
on the stack.  We model those indeterminate bytes as an explicit
`residue` argument (the prior contents of the 34 cells).
`strncmp(str, numstrs[i], 34)` compares exactly 34 bytes (the table
entries contain no NUL in their first 34 characters), i.e. it returns
0 iff the 34-character lists are equal.
-/

/-- Contents of `str` after the decoding loop: the decoded bits
followed by the untouched residue of the 34-byte stack buffer. -/
def strBuf (ps : List (Nat × Nat)) (residue : List Char) : List Char :=
  decodeBits ps ++ residue.drop (decodeBits ps).length

/-- Result of `strncmp(s, p, 34) == 0` for NUL-free 34-character patterns. -/
def strncmp34 (s p : List Char) : Bool := s.take 34 = p.take 34

/-- The matching loop of `getvalue`: scan the table in order, return
the first index whose pattern compares equal, `i` being the running
table index. -/
def matchAux : List (List Char) → Nat → List Char → Int
  | [], _, _ => -1
  | p :: rest, i, s => if strncmp34 s p then i else matchAux rest (i + 1) s

/-- The matching step of `getvalue` applied to a buffer content `s`. -/
def getvalueMatch (s : List Char) : Int := matchAux numstrs 0 s

/-- Restatement of the spec's description of matching (§4.3): the
index of the first table entry that compares equal over 34 characters,
or the no-match sentinel -1. -/
def matchSpec (s : List Char) : Int :=
  let i := numstrs.findIdx (fun p => strncmp34 s p)
  if i < numstrs.length then i else -1

/-- Source function `int getvalue(void)`: decode the captured pulses into `str`, then
match `str` against the table.  `residue` is the indeterminate initial
content of the stack buffer `str`. -/
def getvalue (ps : List (Nat × Nat)) (residue : List Char) : Int :=
  getvalueMatch (strBuf ps residue)

/-!
## `checkcode` (the lock sequence state machine)

`checkcode` reads one decoded value, buzzes, updates the static `pos`,
and toggles the lock on the 8th consecutive correct digit.
-/

/-- Observable outcome of one `checkcode` call: the new value of the
static `pos`, which buzz was emitted (`good = true` for `buzz(true)`),
and whether `togglelock` was called. -/
structure CheckResult where
  pos : Nat
  good : Bool
  toggled : Bool
deriving DecidableEq

/-- One `checkcode` call, as a function of the decoded value `num`
and the current static `pos`. -/
def checkcode (num : Int) (pos : Nat) : CheckResult :=
  if num = -1 then
    ⟨0, false, false⟩
  else if num = codeDigit pos then
    let p := pos + 1
    if p = 8 then ⟨0, true, true⟩ else ⟨p, true, false⟩
  else
    ⟨0, false, false⟩

/-- Feed a list of decoded values through `checkcode`, returning the
final `pos` and the per-step `toggled` flags. -/
def runChecks (nums : List Int) (pos : Nat) : Nat × List Bool :=
  match nums with
  | [] => (pos, [])
  | n :: rest =>
    let r := checkcode n pos
    let (p, ts) := runChecks rest r.pos
    (p, r.toggled :: ts)

/-!
## The capture loop (`loop`)

One call of `loop()` measures one high phase and one low phase of the
IR pin in `RESOLUTION`-microsecond ticks.  A phase whose tick counter
reaches `MAXPULSE` while `currentpulse != 0` ends the transmission:
`checkcode()` runs and `currentpulse` is reset.  With
`currentpulse == 0` the timeout check never fires, the `uint16_t`
counter keeps incrementing (wrapping mod 2^16) until the pin changes,
and the wrapped value is stored.  Stores go to `pulses[currentpulse]`
with no bounds check against the array's capacity of 100;
`currentpulse` is a `uint8_t`, so `currentpulse++` wraps mod 256.

The model takes the true tick durations `hd`, `ld` of the two phases
as inputs, plus the indeterminate `residue` of `getvalue`'s stack
buffer for the case where `checkcode` runs.
-/

/-- The globals of the sketch that the capture loop and `checkcode`
read and write: `currentpulse`, the `pulses` array (modelled as a
total map on indices, so that out-of-bounds stores are visible),
`checkcode`'s static `pos`, and `servopos`. -/
structure SysState where
  cp : Nat
  buf : Nat → Nat × Nat
  pos : Nat
  servopos : Nat

/-- Observable outcome of one `loop()` call: the new global state,
whether `checkcode` was invoked, which buzz it produced, and the
`pulses` indices stored to during the call. -/
structure LoopOut where
  state : SysState
  decoded : Bool
  buzzGood : Bool
  buzzBad : Bool
  writes : List Nat

/-- Point update of the modelled `pulses` array. -/
def updBuf (f : Nat → Nat × Nat) (i : Nat) (v : Nat × Nat) : Nat → Nat × Nat :=
  fun j => if j = i then v else f j

/-- The slice `pulses[0..currentpulse-1]`, the pairs `getvalue` reads. -/
def bufList (s : SysState) : List (Nat × Nat) :=
  (List.range s.cp).map s.buf

/-- The `checkcode()` call as it happens inside `loop`: decode the
captured pairs with `getvalue`, then run the state-machine step,
toggling the servo when `togglelock` fires. -/
def sysCheckcode (s : SysState) (residue : List Char) : SysState × Bool :=
  let num := getvalue (bufList s) residue
  let r := checkcode num s.pos
  ({ s with
      pos := r.pos
      servopos := if r.toggled then (if s.servopos = 0 then 180 else 0) else s.servopos },
   r.good)

/-- One call of `loop()`. -/
def loopStep (s : SysState) (hd ld : Nat) (residue : List Char) : LoopOut :=
  if MAXPULSE ≤ hd ∧ s.cp ≠ 0 then
    -- high-phase timeout with pulses captured: checkcode, reset, return
    let (s1, good) := sysCheckcode s residue
    ⟨{ s1 with cp := 0 }, true, good, !good, []⟩
  else
    -- `pulses[currentpulse][0] = highpulse` (uint16 counter wraps)
    let s1 : SysState := { s with buf := updBuf s.buf s.cp (hd % 65536, (s.buf s.cp).2) }
    if MAXPULSE ≤ ld ∧ s.cp ≠ 0 then
      let (s2, good) := sysCheckcode s1 residue
      ⟨{ s2 with cp := 0 }, true, good, !good, [s.cp]⟩
    else
      -- `pulses[currentpulse][1] = lowpulse; currentpulse++`
      let s2 : SysState :=
        { s1 with
            buf := updBuf s1.buf s.cp ((s1.buf s.cp).1, ld % 65536)
            cp := (s.cp + 1) % 256 }
      ⟨s2, false, false, false, [s.cp, s.cp]⟩

/-- State at power-up: `currentpulse = 0`, `pos = 0`, servo at 0. -/
def initState : SysState := ⟨0, fun _ => (0, 0), 0, 0⟩

/-- Iterate `loop()` over a list of (high, low) phase durations none
of which runs `checkcode`, collecting every `pulses` index stored to. -/
def runCapture (s : SysState) : List (Nat × Nat) → SysState × List Nat
  | [] => (s, [])
  | (hd, ld) :: rest =>
    let o := loopStep s hd ld []
    let (s1, ws) := runCapture o.state rest
    (s1, o.writes ++ ws)

end SafeLock

namespace Monitor

/-- Source constant: `#define MIN_TEMP 10`. -/
def MIN_TEMP : ℚ := 10

/-- Source constant: `#define MAX_TEMP 45`. -/
def MAX_TEMP : ℚ := 45

/-- The threshold test of `collectSample`:
`if(sd[sampleNum].temp < MIN_TEMP || sd[sampleNum].temp > MAX_TEMP)
sendThresholdMsg(sd, sampleNum);`.  Temperatures are modelled as
rationals; both thresholds are exactly representable as `float` and
`<`/`>` on non-NaN floats agree with the order on the represented
values. -/
def thresholdWarning (temp : ℚ) : Bool :=
  temp < MIN_TEMP || temp > MAX_TEMP

end Monitor

namespace SafeLock

/-- A captured pulse sequence of 33 pairs encoding the first 33
characters of table entry 0: a pair (60, 10) decodes to '1'
(60 * 20 > 1000, low kept) and (10, 10) decodes to '0'. -/
def shortPulseSeq : List (Nat × Nat) :=
  ((numstrs.getD 0 []).take 33).map (fun c => if c = '1' then (60, 10) else (10, 10))

end SafeLock

namespace SafeLock

/-- The decoding loop of `getvalue` started at `charpos = c` produces
the filtered, mapped pulse stream (with the 16-bit wrapped products)
truncated to its first `34 - c` bits. -/
theorem decodeAux_eq_take (ps : List (Nat × Nat)) : ∀ c : Nat,
    decodeAux ps c =
      ((ps.filter fun p => !decide (p.2 * RESOLUTION % 65536 > 1000)).map
        fun p => if p.1 * RESOLUTION % 65536 > 1000 then '1' else '0').take (34 - c) := by
  induction ps with
  | nil => intro c; simp [decodeAux]
  | cons p rest ih =>
    intro c
    obtain ⟨h, l⟩ := p
    by_cases hc : c < 34
    · by_cases hl : l * RESOLUTION % 65536 > 1000
      · simp [decodeAux, hc, hl, ih c]
      · have h34 : 34 - c = (34 - (c + 1)) + 1 := by omega
        simp [decodeAux, hc, hl, ih (c + 1), h34]
    · have h34 : 34 - c = 0 := by omega
      simp [decodeAux, hc, h34]

/-- The matching loop of `getvalue` started at table offset `i`
returns `i` plus the index of the first matching pattern of the
remaining table, or -1 when none matches. -/
theorem matchAux_findIdx (s : List Char) : ∀ (ls : List (List Char)) (i : Nat),
    matchAux ls i s =
      if ls.findIdx (fun p => strncmp34 s p) < ls.length
      then ((i : Int) + ls.findIdx (fun p => strncmp34 s p))
      else -1 := by
  intro ls
  induction ls with
  | nil => intro i; simp [matchAux]
  | cons p rest ih =>
    intro i
    by_cases hp : strncmp34 s p
    · simp [matchAux, hp, List.findIdx_cons]
    · rw [List.findIdx_cons]
      simp only [matchAux, hp, if_false, Bool.false_eq_true, cond_false, List.length_cons]
      rw [ih (i + 1)]
      split_ifs with h1 h2 h2 <;> push_cast <;> omega

set_option maxRecDepth 4000 in
/-- C1: the claim says the capture loop never stores a pulse pair at
an index at or beyond the 100-pair capacity, for any number of pulse
pairs received before a timeout.  The code has no bounds check: after
101 consecutive pulse pairs with no timeout (high and low phases of
10 ticks each), `currentpulse` has counted to 101 and the 101st pair
was stored at index 100, one past the last valid index 99 — an
out-of-bounds write the claim forbids. -/
theorem capture_overflow :
    (runCapture initState (List.replicate 101 (10, 10))).1.cp = 101
    ∧ 100 ∈ (runCapture initState (List.replicate 101 (10, 10))).2 := by
  decide

/-- C2: feeding the eight digits of `code` in order through
`checkcode` from position 0 toggles the latch exactly once, at the
8th digit and at no earlier step, and leaves the position at 0. -/
theorem unlock_exact_sequence :
    runChecks code 0 = (0, [false, false, false, false, false, false, false, true]) := by
  decide

/-- C3, counterexample to the claim as stated: a stored low phase of
3277 ticks (reachable, well under the 65000-tick timeout) scales to
3277 * 20 = 65540, which the claim's unbounded reading treats as an
inter-frame gap contributing no bit, but the program's 16-bit
multiply wraps to 4 ≤ 1000, so the pair is kept and a '0' is
emitted. -/
theorem decode_wrap_counterexample :
    decodeBits [(10, 3277)] = ['0']
    ∧ decodeBitsSpec [(10, 3277)] = []
    ∧ ¬ decodeBits [(10, 3277)] = decodeBitsSpec [(10, 3277)] := by
  decide

/-- C3, amended: the decoder emits, in order, one bit per captured
pair whose scaled low phase — the 16-bit product, i.e. reduced mod
65536 — does not exceed 1000 (the bit being whether the equally
wrapped scaled high phase exceeds 1000), skips the others, and caps
the output at 34 bits. -/
theorem decode_bits_wrapped_spec (ps : List (Nat × Nat)) :
    decodeBits ps = decodeBitsSpecWrap ps := by
  have := decodeAux_eq_take ps 0
  simpa [decodeBits, decodeBitsSpecWrap] using this

/-- C4: the matching step returns the index of the first table
pattern that compares equal over 34 characters, or -1 when none
does; and a buffer exactly equal to table entry `i` yields `i`. -/
theorem match_first_and_exact :
    (∀ s : List Char, getvalueMatch s = matchSpec s)
    ∧ (∀ i : Nat, i < 10 → getvalueMatch (numstrs.getD i []) = i) := by
  constructor
  · intro s
    have := matchAux_findIdx s numstrs 0
    simpa [getvalueMatch, matchSpec] using this
  · decide

/-- Witness for C4 at table entry 3. -/
theorem match_exact_witness : getvalueMatch (numstrs.getD 3 []) = 3 :=
  match_first_and_exact.2 3 (by decide)

/-- C5: the claim says every capture decoding to fewer than 34 bits
matches nothing (-1).  `str` is an uninitialized stack buffer and
`strncmp` compares all 34 bytes, so a 33-bit decode equal to a prefix
of table entry 0 matches entry 0 whenever the leftover 34th byte
happens to be '1': `getvalue` returns 0, not -1. -/
theorem short_decode_false_match :
    (decodeBits shortPulseSeq).length = 33
    ∧ getvalue shortPulseSeq (List.replicate 34 '1') = 0 := by
  decide

/-- C6: for any position and decoded value, a no-match result (-1)
and a wrong digit produce the identical outcome — position reset to
0, failure buzz, no toggle — and the position can only move off 0
when the decoded value equals the expected digit. -/
theorem mismatch_resets (pos : Nat) (num : Int) (hpos : pos < 8) :
    ((num = -1 ∨ num ≠ codeDigit pos) → checkcode num pos = ⟨0, false, false⟩)
    ∧ ((checkcode num pos).good = true ↔ num = codeDigit pos)
    ∧ ((checkcode num pos).pos ≠ 0 → num = codeDigit pos) := by
  have hne : codeDigit pos ≠ -1 := by
    interval_cases pos <;> decide
  by_cases h1 : num = -1
  · subst h1
    simp [checkcode, hne.symm, Ne.symm hne]
  · by_cases h2 : num = codeDigit pos
    · subst h2
      simp [checkcode, h1]
      split <;> simp
    · simp [checkcode, h1, h2]

/-- Witness for C6 at position 2 with a no-match result. -/
theorem mismatch_resets_witness :
    (((-1 : Int) = -1 ∨ (-1 : Int) ≠ codeDigit 2) → checkcode (-1) 2 = ⟨0, false, false⟩)
    ∧ ((checkcode (-1) 2).good = true ↔ (-1 : Int) = codeDigit 2)
    ∧ ((checkcode (-1) 2).pos ≠ 0 → (-1 : Int) = codeDigit 2) :=
  mismatch_resets 2 (-1) (by decide)

/-- C7: a `loop()` call entered with zero pulse pairs captured makes
no decode attempt and leaves the lock position, the servo, and both
buzz cues untouched, even when a phase reaches the timeout. -/
theorem idle_timeout_ignored (s : SysState) (hd ld : Nat) (residue : List Char)
    (hcp : s.cp = 0) (_ht : MAXPULSE ≤ hd ∨ MAXPULSE ≤ ld) :
    (loopStep s hd ld residue).decoded = false
    ∧ (loopStep s hd ld residue).state.pos = s.pos
    ∧ (loopStep s hd ld residue).state.servopos = s.servopos
    ∧ (loopStep s hd ld residue).buzzGood = false
    ∧ (loopStep s hd ld residue).buzzBad = false := by
  simp [loopStep, hcp]

/-- Witness for C7: power-up state, high phase at the timeout. -/
theorem idle_timeout_witness :
    (loopStep initState 65000 0 []).decoded = false
    ∧ (loopStep initState 65000 0 []).state.pos = initState.pos
    ∧ (loopStep initState 65000 0 []).state.servopos = initState.servopos
    ∧ (loopStep initState 65000 0 []).buzzGood = false
    ∧ (loopStep initState 65000 0 []).buzzBad = false :=
  idle_timeout_ignored initState 65000 0 [] rfl (Or.inl (by decide))

/-- C8: a `loop()` call in which the high or the low phase reaches
`MAXPULSE` ticks while at least one pulse pair is captured invokes
`checkcode` and resets `currentpulse` to 0. -/
theorem timeout_decodes (s : SysState) (hd ld : Nat) (residue : List Char)
    (hcp : s.cp ≠ 0) (ht : MAXPULSE ≤ hd ∨ MAXPULSE ≤ ld) :
    (loopStep s hd ld residue).decoded = true
    ∧ (loopStep s hd ld residue).state.cp = 0 := by
  by_cases hh : MAXPULSE ≤ hd
  · simp [loopStep, hh, hcp, sysCheckcode]
  · have hl : MAXPULSE ≤ ld := ht.resolve_left hh
    simp [loopStep, hh, hl, hcp, sysCheckcode]

/-- Witness for C8: one captured pair, high phase at the timeout. -/
theorem timeout_decodes_witness :
    (loopStep ⟨1, fun _ => (0, 0), 0, 0⟩ 65000 0 []).decoded = true
    ∧ (loopStep ⟨1, fun _ => (0, 0), 0, 0⟩ 65000 0 []).state.cp = 0 :=
  timeout_decodes ⟨1, fun _ => (0, 0), 0, 0⟩ 65000 0 [] (by decide) (Or.inl (by decide))

/-- C9: positions 0..7 are an invariant of the decode-and-check step:
one `checkcode` call from a position below 8 ends below 8, and hence
any run of calls started at 0 ends below 8. -/
theorem pos_invariant :
    (∀ (num : Int) (pos : Nat), pos < 8 → (checkcode num pos).pos < 8)
    ∧ (∀ (nums : List Int) (pos : Nat), pos < 8 → (runChecks nums pos).1 < 8) := by
  have step : ∀ (num : Int) (pos : Nat), pos < 8 → (checkcode num pos).pos < 8 := by
    intro num pos h
    simp only [checkcode]
    split_ifs <;> dsimp <;> omega
  refine ⟨step, ?_⟩
  intro nums
  induction nums with
  | nil => intro pos h; simpa [runChecks] using h
  | cons n rest ih =>
    intro pos h
    have h1 := step n pos h
    have h2 := ih (checkcode n pos).pos h1
    rcases hr : runChecks rest (checkcode n pos).pos with ⟨p, ts⟩
    rw [hr] at h2
    simp only [runChecks, hr]
    exact h2

/-- Witness for C9: one step at position 3, and a short run from 0. -/
theorem pos_invariant_witness :
    (checkcode 5 3).pos < 8 ∧ (runChecks [5, -1] 0).1 < 8 :=
  ⟨pos_invariant.1 5 3 (by decide), pos_invariant.2 [5, -1] 0 (by decide)⟩

end SafeLock

namespace Monitor

/-- C10: the threshold warning fires exactly when the temperature is
strictly below `MIN_TEMP` (10) or strictly above `MAX_TEMP` (45);
readings equal to either threshold fire no warning. -/
theorem threshold_strict :
    (∀ t : ℚ, thresholdWarning t = true ↔ (t < MIN_TEMP ∨ MAX_TEMP < t))
    ∧ thresholdWarning MIN_TEMP = false ∧ thresholdWarning MAX_TEMP = false := by
  refine ⟨fun t => ?_, by decide, by decide⟩
  simp [thresholdWarning]

end Monitor
